import Mathlib

/-!
Shallow embedding of the sump-monitor daemon (src/main.cpp).

The daemon polls a float-switch sensor on a fixed 50 ms grid, records
transitions with a millisecond timestamp, and pushes a 12-byte frame to at
most one TCP client.  We embed the process state (class State in the source)
as a Lean structure, and each member function as a pure function that takes
the results of its environment calls (sensor read, accept, poll, recv peek,
send) as explicit arguments and returns the updated state together with a
record of its observable effects.
-/

namespace SumpMonitor

/-- One send event: the socket written to, and the values of last_stamp and
last_value that were serialized into the 12-byte frame at that moment. -/
structure SendEv where
  sock : Nat
  stamp : Nat
  value : Bool
deriving DecidableEq, Repr

/-- Observable effects of a code fragment: frames whose send was attempted,
frames actually delivered in full, file descriptors closed (in order),
number of syslog warnings, and absolute deadlines passed to sleep_until
from inside the tick body. -/
structure Out where
  attempts : List SendEv
  sent : List SendEv
  closed : List Nat
  warns : Nat
  sleeps : List Nat
deriving DecidableEq, Repr

def Out.nil : Out := ⟨[], [], [], 0, []⟩

def Out.app (a b : Out) : Out :=
  ⟨a.attempts ++ b.attempts, a.sent ++ b.sent, a.closed ++ b.closed,
   a.warns + b.warns, a.sleeps ++ b.sleeps⟩

/-- The mutable fields of class State in the source.  last_stamp and
last_value are the pump record; s_client is the client slot (some fd when a
client is attached, none for the sentinel fd value -1); clientLED and
activityLED track the logical value last written to GPIO pins 18 and 17
(the source writes them active-low; we record the logical argument of
set_client and set_activity). -/
structure State where
  last_stamp : Nat
  last_value : Bool
  s_client : Option Nat
  clientLED : Bool
  activityLED : Bool
deriving DecidableEq, Repr

/-- State() constructor: last_stamp(0), last_value(false), s_client(-1),
then set_client(false) and set_activity(false). -/
def State.init : State := ⟨0, false, none, false, false⟩

/-- void State.set_client(bool v): writes the logical value v to GPIO pin 18. -/
def set_client (v : Bool) (st : State) : State := { st with clientLED := v }

/-- void State.set_activity(bool v): writes the logical value v to GPIO pin 17. -/
def set_activity (v : Bool) (st : State) : State := { st with activityLED := v }

/-- The 12-byte frame built in State.send_state from last_stamp (t) and
last_value (v): bytes 0..7 are the successive uint8_t truncations of
t >> 56, t >> 48, ..., t >> 8, t; bytes 8..10 are 0; byte 11 is the
bool-to-int conversion of v. -/
def wire_bytes (t : Nat) (v : Bool) : List Nat :=
  [ t / 2 ^ 56 % 256, t / 2 ^ 48 % 256, t / 2 ^ 40 % 256, t / 2 ^ 32 % 256,
    t / 2 ^ 24 % 256, t / 2 ^ 16 % 256, t / 2 ^ 8 % 256, t % 256,
    0, 0, 0, if v then 1 else 0 ]

/-- void State.send_state(): if a client is attached (s_client != -1) and
last_stamp != 0, serialize the frame and attempt a single send.  sendOk is
the environment: whether send returned sizeof(buf).  On a short or failed
send: syslog warning, set_client(false), close(s_client), s_client = -1.
Otherwise the function is a no-op. -/
def send_state (sendOk : Bool) (st : State) : State × Out :=
  match st.s_client with
  | none => (st, Out.nil)
  | some c =>
    if st.last_stamp = 0 then (st, Out.nil)
    else
      let ev : SendEv := ⟨c, st.last_stamp, st.last_value⟩
      if sendOk then
        (st, ⟨[ev], [ev], [], 0, []⟩)
      else
        ({ set_client false st with s_client := none }, ⟨[ev], [], [c], 1, []⟩)

/-- Per-tick environment inputs: the sensor reading, the result of the one
non-blocking accept (some fd or none), the two setsockopt results on a new
connection, whether poll reported readability, whether the MSG_PEEK recv
returned 0 (orderly half-close), and the outcomes of the up to two send
calls a tick can make (one from the transition branch of update, one from
the accept branch of check_for_clients). -/
structure TickIn where
  current : Bool
  sendOkT : Bool
  acceptRes : Option Nat
  nosigpipeOk : Bool
  keepaliveOk : Bool
  pollPos : Bool
  peekZero : Bool
  sendOkA : Bool
deriving DecidableEq, Repr

/-- void State.check_for_clients(): one non-blocking accept.  If it yields a
socket s: set_client(true), close any previous occupant, set the two socket
options (each failure only logs a warning), store s in the slot and
immediately send_state().  If nothing was accepted but a client is attached:
poll for readability and MSG_PEEK; a zero-byte peek means orderly half-close,
so close the socket, clear the slot and set_client(false). -/
def check_for_clients (acceptRes : Option Nat) (nosigpipeOk keepaliveOk : Bool)
    (pollPos peekZero : Bool) (sendOk : Bool) (st : State) : State × Out :=
  match acceptRes with
  | some s =>
    let st1 := set_client true st
    let closedOld : List Nat := match st1.s_client with
      | some old => [old]
      | none => []
    let w : Nat := if nosigpipeOk then (if keepaliveOk then 0 else 1) else 1
    let st2 := { st1 with s_client := some s }
    let r := send_state sendOk st2
    (r.1, Out.app ⟨[], [], closedOld, w, []⟩ r.2)
  | none =>
    match st.s_client with
    | none => (st, Out.nil)
    | some c =>
      if pollPos then
        if peekZero then
          ({ set_client false st with s_client := none }, ⟨[], [], [c], 0, []⟩)
        else (st, Out.nil)
      else (st, Out.nil)

/-- The transition detection inside State.update (the if statement guarded by
last_value != current or last_stamp == 0): on a transition, store current and
stamp and call send_state on the updated record; otherwise do nothing. -/
def evaluate (current : Bool) (stamp : Nat) (sendOk : Bool) (st : State) :
    State × Out :=
  if st.last_value ≠ current ∨ st.last_stamp = 0 then
    send_state sendOk { st with last_stamp := stamp, last_value := current }
  else (st, Out.nil)

/-- void State.update(uint64_t stamp): set_activity(true); read the sensor;
run the transition branch; check_for_clients; and when the sensor is
inactive, sleep_until(stamp + 20) and only then set_activity(false). -/
def update (stamp : Nat) (i : TickIn) (st : State) : State × Out :=
  let st0 := set_activity true st
  let r1 := evaluate i.current stamp i.sendOkT st0
  let r2 := check_for_clients i.acceptRes i.nosigpipeOk i.keepaliveOk
    i.pollPos i.peekZero i.sendOkA r1.1
  let r3 : State × Out :=
    if i.current then (r2.1, Out.nil)
    else (set_activity false r2.1, ⟨[], [], [], 0, [stamp + 20]⟩)
  (r3.1, Out.app r1.2 (Out.app r2.2 r3.2))

/-- The absolute deadline grid of the main loop: timebase starts at the
initial clock reading and each iteration executes timebase += 50 before
sleeping, so deadline n+1 is deadline n plus the fixed period, never the
current time plus the period. -/
def mainDeadline (t0 : Nat) : Nat → Nat
  | 0 => t0
  | n + 1 => mainDeadline t0 n + 50

/-- The main loop starting from timebase tb: for each remaining tick input,
advance the timebase by the 50 ms period and run update at the new
timebase. -/
def run (tb : Nat) (ins : List TickIn) (st : State) : State :=
  match ins with
  | [] => st
  | i :: rest => run (tb + 50) rest (update (tb + 50) i st).1

/-- Result of one clock_nanosleep call, following the tripartition in the
source comment: 0 means the full time elapsed, a positive value means a
signal interrupted the wait, and -1 is an error that should never happen. -/
inductive NsResult where
  | elapsed
  | intr
  | err
deriving DecidableEq, Repr

/-- Outcome of static void sleep_until(uint64_t): completed normally, threw
a runtime_error (fatal), or is still waiting after consuming the listed
primitive results. -/
inductive SleepOutcome where
  | completed
  | fatal
  | pending
deriving DecidableEq, Repr

/-- static void sleep_until(uint64_t timebase): repeatedly calls
clock_nanosleep with TIMER_ABSTIME on the fixed timespec for the deadline.
We feed it the finite list of results the primitive will return; the second
component records the absolute deadline passed to each call made. -/
def sleep_until (deadline : Nat) : List NsResult → SleepOutcome × List Nat
  | [] => (.pending, [])
  | .elapsed :: _ => (.completed, [deadline])
  | .err :: _ => (.fatal, [deadline])
  | .intr :: rs =>
    let r := sleep_until deadline rs
    (r.1, deadline :: r.2)

/-! ## Preservation lemmas -/

/-- send_state never touches the pump record, the activity LED, or the
sleep list. -/
theorem send_state_pres (ok : Bool) (st : State) :
    (send_state ok st).1.last_stamp = st.last_stamp ∧
    (send_state ok st).1.last_value = st.last_value ∧
    (send_state ok st).1.activityLED = st.activityLED ∧
    (send_state ok st).2.sleeps = [] := by
  unfold send_state
  cases st.s_client with
  | none => simp [Out.nil]
  | some c =>
    by_cases h : st.last_stamp = 0 <;> by_cases hk : ok <;>
      simp [h, hk, set_client, Out.nil]

/-- Every send attempt recorded by send_state carries the current pump
record, and only happens when last_stamp is nonzero and a client is
attached. -/
theorem send_state_attempts (ok : Bool) (st : State) :
    ∀ ev ∈ (send_state ok st).2.attempts,
      ev.stamp = st.last_stamp ∧ ev.value = st.last_value ∧
      st.last_stamp ≠ 0 ∧ st.s_client = some ev.sock := by
  unfold send_state
  cases hc : st.s_client with
  | none => simp [Out.nil]
  | some c =>
    by_cases h : st.last_stamp = 0 <;> by_cases hk : ok <;>
      simp +contextual [h, hk, set_client, Out.nil]

/-- check_for_clients never touches the pump record, the activity LED, or
the sleep list. -/
theorem check_for_clients_pres (a : Option Nat) (nk kk pp pz ok : Bool)
    (st : State) :
    (check_for_clients a nk kk pp pz ok st).1.last_stamp = st.last_stamp ∧
    (check_for_clients a nk kk pp pz ok st).1.last_value = st.last_value ∧
    (check_for_clients a nk kk pp pz ok st).1.activityLED = st.activityLED ∧
    (check_for_clients a nk kk pp pz ok st).2.sleeps = [] := by
  unfold check_for_clients
  cases a with
  | some s =>
    have h := send_state_pres ok { set_client true st with s_client := some s }
    simp only [set_client] at h ⊢
    simp [Out.app, h.1, h.2.1, h.2.2.1, h.2.2.2, set_client]
  | none =>
    cases st.s_client with
    | none => simp [Out.nil]
    | some c =>
      by_cases hp : pp <;> by_cases hz : pz <;>
        simp [hp, hz, set_client, Out.nil]

/-- evaluate never touches the activity LED or the sleep list, and it
changes the pump record only to (current, stamp). -/
theorem evaluate_pres (current : Bool) (stamp : Nat) (ok : Bool) (st : State) :
    (evaluate current stamp ok st).1.activityLED = st.activityLED ∧
    (evaluate current stamp ok st).2.sleeps = [] ∧
    ((evaluate current stamp ok st).1.last_stamp = stamp ∨
      (evaluate current stamp ok st).1.last_stamp = st.last_stamp) ∧
    ((evaluate current stamp ok st).1.last_stamp = stamp ∧
       (evaluate current stamp ok st).1.last_value = current ∨
      evaluate current stamp ok st = (st, Out.nil)) := by
  unfold evaluate
  by_cases h : st.last_value ≠ current ∨ st.last_stamp = 0
  · have hp := send_state_pres ok
      { st with last_stamp := stamp, last_value := current }
    simp only [h, if_pos] at *
    exact ⟨hp.2.2.1, hp.2.2.2, Or.inl hp.1, Or.inl ⟨hp.1, hp.2.1⟩⟩
  · simp [h, Out.nil]

/-- Every send attempt recorded by evaluate carries the freshly stored pump
record and targets the attached client, and only happens with a nonzero
stamp. -/
theorem evaluate_attempts (current : Bool) (stamp : Nat) (ok : Bool)
    (st : State) :
    ∀ ev ∈ (evaluate current stamp ok st).2.attempts,
      ev.stamp = stamp ∧ ev.value = current ∧ stamp ≠ 0 ∧
      st.s_client = some ev.sock := by
  unfold evaluate
  by_cases h : st.last_value ≠ current ∨ st.last_stamp = 0
  · rw [if_pos h]
    intro ev hev
    have := send_state_attempts ok
      { st with last_stamp := stamp, last_value := current } ev hev
    exact ⟨this.1, this.2.1, this.2.2.1, this.2.2.2⟩
  · rw [if_neg h]
    simp [Out.nil]

/-- Every send attempt recorded by check_for_clients carries the unchanged
pump record, targets the freshly accepted socket, and only happens with a
nonzero stamp. -/
theorem check_for_clients_attempts (a : Option Nat) (nk kk pp pz ok : Bool)
    (st : State) :
    ∀ ev ∈ (check_for_clients a nk kk pp pz ok st).2.attempts,
      ev.stamp = st.last_stamp ∧ ev.value = st.last_value ∧
      st.last_stamp ≠ 0 ∧ a = some ev.sock := by
  unfold check_for_clients
  cases a with
  | some s =>
    intro ev hev
    simp only [Out.app, List.nil_append] at hev
    have := send_state_attempts ok
      { set_client true st with s_client := some s } ev hev
    exact ⟨this.1, this.2.1, this.2.2.1, this.2.2.2⟩
  | none =>
    cases st.s_client with
    | none => simp [Out.nil]
    | some c =>
      by_cases hp : pp <;> by_cases hz : pz <;> simp [hp, hz, Out.nil]

/-- The send attempts of one tick are those of the transition branch
followed by those of check_for_clients. -/
theorem update_attempts_eq (stamp : Nat) (i : TickIn) (st : State) :
    (update stamp i st).2.attempts =
      (evaluate i.current stamp i.sendOkT (set_activity true st)).2.attempts ++
      (check_for_clients i.acceptRes i.nosigpipeOk i.keepaliveOk i.pollPos
        i.peekZero i.sendOkA
        (evaluate i.current stamp i.sendOkT (set_activity true st)).1).2.attempts := by
  unfold update
  by_cases h : i.current <;> simp [h, Out.app, Out.nil]

/-! ## Claim theorems -/

/-- C1: In the transition evaluation with sensor reading current and tick
timestamp stamp, a transition is declared iff current differs from the
stored value or the stored timestamp is the sentinel 0.  On a transition the
stored value becomes current, the stored timestamp becomes stamp, and the
updated snapshot is handed to the broadcast routine (with a client attached
and a nonzero stamp, exactly one frame carrying the updated record is
attempted); otherwise the state is unchanged and nothing is produced. -/
theorem evaluate_transition (current : Bool) (stamp : Nat) (ok : Bool)
    (st : State) :
    ((current ≠ st.last_value ∨ st.last_stamp = 0) →
      (evaluate current stamp ok st).1.last_value = current ∧
      (evaluate current stamp ok st).1.last_stamp = stamp ∧
      evaluate current stamp ok st =
        send_state ok { st with last_stamp := stamp, last_value := current } ∧
      (∀ c, st.s_client = some c → stamp ≠ 0 →
        (evaluate current stamp ok st).2.attempts = [⟨c, stamp, current⟩])) ∧
    (¬(current ≠ st.last_value ∨ st.last_stamp = 0) →
      evaluate current stamp ok st = (st, Out.nil)) := by
  constructor
  · intro h
    have h2 : st.last_value ≠ current ∨ st.last_stamp = 0 := by tauto
    have heq : evaluate current stamp ok st =
        send_state ok { st with last_stamp := stamp, last_value := current } := by
      unfold evaluate
      rw [if_pos h2]
    refine ⟨?_, ?_, heq, ?_⟩
    · rw [heq]
      exact (send_state_pres ok _).2.1
    · rw [heq]
      exact (send_state_pres ok _).1
    · intro c hc hs
      rw [heq]
      unfold send_state
      simp only [hc]
      cases ok <;> simp [hs, set_client]
  · intro h
    have h2 : ¬(st.last_value ≠ current ∨ st.last_stamp = 0) := by tauto
    unfold evaluate
    rw [if_neg h2]

theorem evaluate_transition_witness :
    (evaluate true 7 true State.init).1.last_value = true ∧
    (evaluate true 7 true State.init).1.last_stamp = 7 :=
  ⟨((evaluate_transition true 7 true State.init).1 (by decide)).1,
   ((evaluate_transition true 7 true State.init).1 (by decide)).2.1⟩

/-- C2: The frame built for timestamp t and value v is exactly 12 bytes;
bytes 0 to 7 are t in 64-bit big-endian (each below 256 and recombining to
t when t fits in 64 bits), bytes 8 to 10 are zero, and byte 11 is 1 when v
is true and 0 otherwise; in particular timestamp 1000 with value true gives
00 00 00 00 00 00 03 E8 00 00 00 01. -/
theorem wire_bytes_layout (t : Nat) (v : Bool) (ht : t < 2 ^ 64) :
    (wire_bytes t v).length = 12 ∧
    (∃ b0 b1 b2 b3 b4 b5 b6 b7,
      wire_bytes t v =
        [b0, b1, b2, b3, b4, b5, b6, b7, 0, 0, 0, if v then 1 else 0] ∧
      b0 < 256 ∧ b1 < 256 ∧ b2 < 256 ∧ b3 < 256 ∧ b4 < 256 ∧ b5 < 256 ∧
      b6 < 256 ∧ b7 < 256 ∧
      b0 * 2 ^ 56 + b1 * 2 ^ 48 + b2 * 2 ^ 40 + b3 * 2 ^ 32 + b4 * 2 ^ 24 +
        b5 * 2 ^ 16 + b6 * 2 ^ 8 + b7 = t) ∧
    wire_bytes 1000 true = [0, 0, 0, 0, 0, 0, 3, 232, 0, 0, 0, 1] := by
  refine ⟨rfl,
    ⟨_, _, _, _, _, _, _, _, rfl, ?_, ?_, ?_, ?_, ?_, ?_, ?_, ?_, ?_⟩,
    by decide⟩
  all_goals omega

theorem wire_bytes_layout_witness :
    1000 < 2 ^ 64 ∧ wire_bytes 1000 true = [0, 0, 0, 0, 0, 0, 3, 232, 0, 0, 0, 1] :=
  ⟨by decide, (wire_bytes_layout 1000 true (by decide)).2.2⟩

/-- C3: With the fixed 50 ms period, assuming every wake happens at or
after its deadline and strictly less than one period late, the deadline of
the Nth tick is the initial deadline plus N times 50: each deadline is the
previous deadline plus the period, independent of the wake times. -/
theorem mainDeadline_drift_free (t0 N : Nat) (wake : Nat → Nat)
    (_h : ∀ n, mainDeadline t0 n ≤ wake n ∧ wake n < mainDeadline t0 n + 50) :
    mainDeadline t0 N = t0 + N * 50 := by
  induction N with
  | zero => simp [mainDeadline]
  | succ n ih =>
    unfold mainDeadline
    rw [ih]
    ring

theorem mainDeadline_drift_free_witness :
    mainDeadline 0 3 = 0 + 3 * 50 :=
  mainDeadline_drift_free 0 3 (fun n => mainDeadline 0 n)
    (fun _ => ⟨Nat.le_refl _, Nat.lt_add_of_pos_right (by decide)⟩)

/-- C4: On any tick from any state, every frame whose send is attempted
carries a nonzero stored timestamp, and the broadcast routine is a no-op
whenever the client slot is empty or the sentinel timestamp 0 holds. -/
theorem no_sentinel_broadcast (stamp : Nat) (i : TickIn) (st : State) :
    (∀ ev ∈ (update stamp i st).2.attempts, ev.stamp ≠ 0) ∧
    (∀ ok, st.s_client = none ∨ st.last_stamp = 0 →
      send_state ok st = (st, Out.nil)) := by
  constructor
  · intro ev hev
    rw [update_attempts_eq] at hev
    rcases List.mem_append.mp hev with h1 | h2
    · have := evaluate_attempts i.current stamp i.sendOkT
        (set_activity true st) ev h1
      rw [this.1]
      exact this.2.2.1
    · have := check_for_clients_attempts i.acceptRes i.nosigpipeOk
        i.keepaliveOk i.pollPos i.peekZero i.sendOkA
        (evaluate i.current stamp i.sendOkT (set_activity true st)).1 ev h2
      rw [this.1]
      exact this.2.2.1
  · intro ok h
    unfold send_state
    rcases h with h | h
    · simp [h]
    · cases hc : st.s_client <;> simp [h]

theorem no_sentinel_broadcast_witness :
    (update 50 ⟨true, true, some 5, true, true, true, true, true⟩
      State.init).2.attempts = [⟨5, 50, true⟩] ∧
    SendEv.stamp ⟨5, 50, true⟩ ≠ 0 ∧
    send_state true State.init = (State.init, Out.nil) :=
  ⟨by decide,
   (no_sentinel_broadcast 50 ⟨true, true, some 5, true, true, true, true, true⟩
      State.init).1 ⟨5, 50, true⟩ (by decide),
   (no_sentinel_broadcast 50 ⟨true, true, some 5, true, true, true, true, true⟩
      State.init).2 true (Or.inl rfl)⟩

/-- C5: When the send fails or is short, exactly one attempt is made (no
retry), a warning is logged, the client-present indicator is cleared, the
socket is closed, the slot is emptied, and the stored pump record is left
unchanged. -/
theorem send_failure_drops_client (st : State) (c : Nat)
    (hc : st.s_client = some c) (hs : st.last_stamp ≠ 0) :
    send_state false st =
      ({ st with s_client := none, clientLED := false },
        ⟨[⟨c, st.last_stamp, st.last_value⟩], [], [c], 1, []⟩) ∧
    (send_state false st).1.last_stamp = st.last_stamp ∧
    (send_state false st).1.last_value = st.last_value ∧
    (send_state false st).2.attempts.length = 1 ∧
    (send_state false st).2.sent = [] ∧
    (send_state false st).2.warns = 1 := by
  unfold send_state
  simp [hc, hs, set_client]

theorem send_failure_drops_client_witness :
    send_state false ⟨100, true, some 4, true, true⟩ =
      (⟨100, true, none, false, true⟩,
        ⟨[⟨4, 100, true⟩], [], [4], 1, []⟩) :=
  (send_failure_drops_client ⟨100, true, some 4, true, true⟩ 4 rfl
    (by decide)).1

/-- send_state leaves the client slot unchanged or empties it. -/
theorem send_state_slot (ok : Bool) (st : State) :
    (send_state ok st).1.s_client = st.s_client ∨
    (send_state ok st).1.s_client = none := by
  cases hc : st.s_client with
  | none => simp [send_state, hc]
  | some c =>
    by_cases h : st.last_stamp = 0 <;> by_cases hk : ok <;>
      simp [send_state, hc, h, hk, set_client]

/-- C6: When a new connection b is accepted while client a is attached, the
socket of a is the first descriptor closed (before anything else happens to
the slot), the result slot holds b (or is empty if the immediate push to b
failed), every send attempt of this call targets b, and any subsequent
broadcast from the resulting state targets only b. -/
theorem latest_wins (st : State) (a b : Nat) (nk kk pp pz ok : Bool)
    (ha : st.s_client = some a) :
    (check_for_clients (some b) nk kk pp pz ok st).2.closed.head? = some a ∧
    (∀ ev ∈ (check_for_clients (some b) nk kk pp pz ok st).2.attempts,
      ev.sock = b) ∧
    ((check_for_clients (some b) nk kk pp pz ok st).1.s_client = some b ∨
      (check_for_clients (some b) nk kk pp pz ok st).1.s_client = none) ∧
    (∀ ok2, ∀ ev ∈
      (send_state ok2
        (check_for_clients (some b) nk kk pp pz ok st).1).2.attempts,
      ev.sock = b) := by
  have hslot : (check_for_clients (some b) nk kk pp pz ok st).1.s_client =
      some b ∨
      (check_for_clients (some b) nk kk pp pz ok st).1.s_client = none := by
    have h2 := send_state_slot ok { set_client true st with s_client := some b }
    simp only [check_for_clients]
    exact h2
  refine ⟨?_, ?_, hslot, ?_⟩
  · simp only [check_for_clients, Out.app, ha, set_client]
    simp
  · intro ev hev
    have h4 := (check_for_clients_attempts (some b) nk kk pp pz ok st ev
      hev).2.2.2
    exact (Option.some.inj h4).symm
  · intro ok2 ev hev
    have h5 := (send_state_attempts ok2 _ ev hev).2.2.2
    rcases hslot with h | h
    · rw [h] at h5
      exact (Option.some.inj h5).symm
    · rw [h] at h5
      exact absurd h5 (by simp)

theorem latest_wins_witness :
    (check_for_clients (some 9) true true true true true
      ⟨100, true, some 3, true, false⟩).2.closed.head? = some 3 ∧
    (check_for_clients (some 9) true true true true true
      ⟨100, true, some 3, true, false⟩).1.s_client = some 9 :=
  ⟨(latest_wins ⟨100, true, some 3, true, false⟩ 3 9 true true true true true
      rfl).1,
   by decide⟩

/-- C7: With no pending connection, a client attached, poll reporting
readability and a zero-byte peek (orderly half-close), the socket is closed,
the slot is cleared and the client LED is dropped within the call, nothing
is sent, and a broadcast from the resulting state attempts no send at
all. -/
theorem half_close_prunes (st : State) (c : Nat) (nk kk ok : Bool)
    (hc : st.s_client = some c) :
    check_for_clients none nk kk true true ok st =
      ({ st with s_client := none, clientLED := false },
        ⟨[], [], [c], 0, []⟩) ∧
    (∀ ok2, (send_state ok2
      (check_for_clients none nk kk true true ok st).1).2.attempts = []) := by
  have heq : check_for_clients none nk kk true true ok st =
      ({ st with s_client := none, clientLED := false },
        ⟨[], [], [c], 0, []⟩) := by
    unfold check_for_clients
    simp [hc, set_client]
  refine ⟨heq, ?_⟩
  intro ok2
  rw [heq]
  unfold send_state
  simp [Out.nil]

theorem half_close_prunes_witness :
    check_for_clients none true true true true true
      ⟨100, true, some 4, true, false⟩ =
      (⟨100, true, none, false, false⟩, ⟨[], [], [4], 0, []⟩) :=
  (half_close_prunes ⟨100, true, some 4, true, false⟩ 4 true true true rfl).1

/-- One tick either stores the tick timestamp or leaves last_stamp
unchanged. -/
theorem update_last_stamp_cases (stamp : Nat) (i : TickIn) (st : State) :
    (update stamp i st).1.last_stamp = stamp ∨
    (update stamp i st).1.last_stamp = st.last_stamp := by
  have h1 : (update stamp i st).1.last_stamp =
      (evaluate i.current stamp i.sendOkT (set_activity true st)).1.last_stamp := by
    unfold update
    by_cases h : i.current <;>
      simp [h, set_activity,
        (check_for_clients_pres i.acceptRes i.nosigpipeOk i.keepaliveOk
          i.pollPos i.peekZero i.sendOkA _).1]
  rw [h1]
  rcases (evaluate_pres i.current stamp i.sendOkT (set_activity true st)).2.2.1
    with h | h
  · exact Or.inl h
  · exact Or.inr h

/-- When no transition is declared, one tick leaves last_stamp unchanged. -/
theorem update_no_transition (stamp : Nat) (i : TickIn) (st : State)
    (h : ¬(st.last_value ≠ i.current ∨ st.last_stamp = 0)) :
    (update stamp i st).1.last_stamp = st.last_stamp := by
  have h1 : (update stamp i st).1.last_stamp =
      (evaluate i.current stamp i.sendOkT (set_activity true st)).1.last_stamp := by
    unfold update
    by_cases hcur : i.current <;>
      simp [hcur, set_activity,
        (check_for_clients_pres i.acceptRes i.nosigpipeOk i.keepaliveOk
          i.pollPos i.peekZero i.sendOkA _).1]
  rw [h1]
  unfold evaluate
  simp [set_activity, h]

/-- Splitting a run at a list append point. -/
theorem run_append (tb : Nat) (pre suf : List TickIn) (st : State) :
    run tb (pre ++ suf) st = run (tb + 50 * pre.length) suf (run tb pre st) := by
  induction pre generalizing tb st with
  | nil => simp [run]
  | cons i rest ih =>
    simp only [List.cons_append, run, List.length_cons, List.append_eq]
    rw [ih]
    have harith : tb + 50 + 50 * rest.length = tb + 50 * (rest.length + 1) := by
      ring
    rw [harith]

/-- The recorded timestamp never decreases along a run and never exceeds
the running timebase. -/
theorem run_bounds (tb : Nat) (ins : List TickIn) (st : State)
    (h : st.last_stamp ≤ tb) :
    st.last_stamp ≤ (run tb ins st).last_stamp ∧
    (run tb ins st).last_stamp ≤ tb + 50 * ins.length := by
  induction ins generalizing tb st with
  | nil =>
    refine ⟨Nat.le_refl _, ?_⟩
    simpa [run] using h
  | cons i rest ih =>
    have hstep := update_last_stamp_cases (tb + 50) i st
    have hstep2 : st.last_stamp ≤ (update (tb + 50) i st).1.last_stamp ∧
        (update (tb + 50) i st).1.last_stamp ≤ tb + 50 := by
      rcases hstep with h2 | h2 <;> rw [h2] <;> omega
    have hrest := ih (tb + 50) (update (tb + 50) i st).1 hstep2.2
    refine ⟨Nat.le_trans hstep2.1 hrest.1, ?_⟩
    calc (run tb (i :: rest) st).last_stamp
        = (run (tb + 50) rest (update (tb + 50) i st).1).last_stamp := rfl
      _ ≤ tb + 50 + 50 * rest.length := hrest.2
      _ ≤ tb + 50 * (i :: rest).length := by simp [List.length_cons]; ring_nf; omega

/-- C8: Along any execution of the control loop whose initial recorded
timestamp does not exceed the initial timebase, the recorded timestamp
after any prefix of ticks is at most the one after any longer prefix
(monotone non-decreasing), and a tick changes last_stamp only when the
value changed or the sentinel 0 held. -/
theorem since_monotonic (tb : Nat) (pre suf : List TickIn) (st : State)
    (h : st.last_stamp ≤ tb) :
    (run tb pre st).last_stamp ≤ (run tb (pre ++ suf) st).last_stamp ∧
    (∀ stamp i st2, ¬(st2.last_value ≠ i.current ∨ st2.last_stamp = 0) →
      (update stamp i st2).1.last_stamp = st2.last_stamp) := by
  constructor
  · rw [run_append]
    have h1 := run_bounds tb pre st h
    exact (run_bounds (tb + 50 * pre.length) suf (run tb pre st) h1.2).1
  · intro stamp i st2 hni
    exact update_no_transition stamp i st2 hni

theorem since_monotonic_witness :
    (run 0 [⟨true, true, none, true, true, false, false, true⟩]
      State.init).last_stamp ≤
    (run 0 ([⟨true, true, none, true, true, false, false, true⟩] ++
      [⟨false, true, none, true, true, false, false, true⟩])
      State.init).last_stamp :=
  (since_monotonic 0 [⟨true, true, none, true, true, false, false, true⟩]
    [⟨false, true, none, true, true, false, false, true⟩]
    State.init (Nat.le_refl 0)).1

/-- C9: sleep_until resumes waiting after an interruption, always passing
the same absolute deadline to the wait primitive, completes only when the
primitive has reported that the full time elapsed (never early), and an
error result distinct from an interruption makes it throw (fatal). -/
theorem sleep_until_spec (d : Nat) (rs : List NsResult) :
    (sleep_until d (NsResult.intr :: rs)).1 = (sleep_until d rs).1 ∧
    (∀ c ∈ (sleep_until d rs).2, c = d) ∧
    ((sleep_until d rs).1 = SleepOutcome.completed → NsResult.elapsed ∈ rs) ∧
    (sleep_until d (NsResult.err :: rs)).1 = SleepOutcome.fatal := by
  refine ⟨rfl, ?_, ?_, rfl⟩
  · induction rs with
    | nil => simp [sleep_until]
    | cons r rest ih =>
      cases r with
      | elapsed => simp [sleep_until]
      | err => simp [sleep_until]
      | intr =>
        intro c hc
        simp only [sleep_until, List.mem_cons] at hc
        rcases hc with rfl | hc
        · rfl
        · exact ih c hc
  · induction rs with
    | nil => simp [sleep_until]
    | cons r rest ih =>
      cases r with
      | elapsed => simp [sleep_until]
      | err => simp [sleep_until]
      | intr =>
        intro hcomp
        simp only [sleep_until] at hcomp
        exact List.mem_cons_of_mem _ (ih hcomp)

theorem sleep_until_spec_witness :
    (sleep_until 5 [NsResult.elapsed]).1 = SleepOutcome.completed ∧
    NsResult.elapsed ∈ [NsResult.elapsed] :=
  ⟨by decide, (sleep_until_spec 5 [NsResult.elapsed]).2.2.1 (by decide)⟩

/-- C10: When the sensor reads inactive, the tick body performs one extra
absolute wait until stamp + 20 and only then returns with the busy LED
de-asserted; when the sensor reads active, no extra wait happens and the
busy LED is still asserted when the tick returns. -/
theorem update_idle_wait (stamp : Nat) (i : TickIn) (st : State) :
    (i.current = false →
      (update stamp i st).2.sleeps = [stamp + 20] ∧
      (update stamp i st).1.activityLED = false) ∧
    (i.current = true →
      (update stamp i st).2.sleeps = [] ∧
      (update stamp i st).1.activityLED = true) := by
  have e1 := evaluate_pres i.current stamp i.sendOkT (set_activity true st)
  have c1 := check_for_clients_pres i.acceptRes i.nosigpipeOk i.keepaliveOk
    i.pollPos i.peekZero i.sendOkA
    (evaluate i.current stamp i.sendOkT (set_activity true st)).1
  constructor
  · intro h
    unfold update
    rw [h] at e1 c1
    simp only [h]
    constructor
    · simp [Out.app, e1.2.1, c1.2.2.2]
    · simp [set_activity]
  · intro h
    unfold update
    rw [h] at e1 c1
    simp only [h]
    constructor
    · simp [Out.app, Out.nil, e1.2.1, c1.2.2.2]
    · simp only [if_pos]
      rw [c1.2.2.1, e1.1]
      simp [set_activity]

theorem update_idle_wait_witness :
    (update 100 ⟨false, true, none, true, true, false, false, true⟩
      State.init).2.sleeps = [100 + 20] ∧
    (update 100 ⟨false, true, none, true, true, false, false, true⟩
      State.init).1.activityLED = false :=
  (update_idle_wait 100 ⟨false, true, none, true, true, false, false, true⟩
    State.init).1 rfl

end SumpMonitor
